import Mathlib

/-!
Verification of the engagement-plan guest-management application.

Strings are modelled as `List Char`; JavaScript objects / records as
association lists with first-match lookup (later writes shadow earlier
ones by prepending); `null`-able values as `Option`; JS `number` fields
holding integers as `Int` (indices as `Nat`).
-/

namespace EngagementPlan

/-! ## String model and `turkishIncludes` (src/unnamed/part_006) -/

/-- JS `String.prototype.toLowerCase`, restricted to the Latin/Turkish
repertoire the application works with: ASCII `A`-`Z` and the uppercase
Turkish letters `Ç Ğ Ö Ş Ü` map to their lowercase forms, every other
character is left unchanged.  (`İ` and `I` never reach `toLowerCase` in
`turkishLower`: they are replaced first.) -/
def jsLowerChar (c : Char) : Char :=
  if 'A' ≤ c ∧ c ≤ 'Z' then Char.toLower c
  else if c = 'Ç' then 'ç'
  else if c = 'Ğ' then 'ğ'
  else if c = 'Ö' then 'ö'
  else if c = 'Ş' then 'ş'
  else if c = 'Ü' then 'ü'
  else c

/-- The two `replace` calls of `turkishLower`: `İ → i`, `I → ı`
(character-wise, as both replacements are single-character). -/
def preChar (c : Char) : Char :=
  if c = 'İ' then 'i' else if c = 'I' then 'ı' else c

/-- `turkishLower` from `turkishIncludes`:
`str.replace(/İ/g, 'i').replace(/I/g, 'ı').toLowerCase()`. -/
def turkishLower (s : List Char) : List Char :=
  s.map (fun c => jsLowerChar (preChar c))

/-- `List` prefix test (Boolean). -/
def isPrefixL : List Char → List Char → Bool
  | [], _ => true
  | _ :: _, [] => false
  | p :: ps, c :: cs => p = c && isPrefixL ps cs

/-- JS `String.prototype.includes`: `pat` occurs as a contiguous
substring of `text`. -/
def hasInfix (text pat : List Char) : Bool :=
  match text with
  | [] => isPrefixL pat []
  | _ :: rest => isPrefixL pat text || hasInfix rest pat

/-- `turkishIncludes(text, search)` from src/unnamed/part_006:
`turkishLower(text).includes(turkishLower(search))`. -/
def turkishIncludes (text search : List Char) : Bool :=
  hasInfix (turkishLower text) (turkishLower search)

/-! ## Guest data model (src/frontend/src/lib/supabase.ts) -/

/-- The `Guest` interface of src/frontend/src/lib/supabase.ts. -/
structure Guest where
  id : Int
  full_name : List Char
  person_count : Int
  desk_no : Int
  gift_count : Int
  description : Option (List Char)
  is_attended : Option Bool
  display_order : Option Int
deriving DecidableEq, Repr

/-- The raw bundled-JSON guest record (`GuestRaw`). -/
structure GuestRaw where
  fullName : List Char
  personCount : Int
  deskNo : Int
  giftCount : Int
  description : Option (List Char)
deriving DecidableEq, Repr

/-! ## Guest filtering (src/frontend/src/App.tsx, `filteredGuests`) -/

/-- The filter modes of the guest list UI. -/
inductive FilterMode where
  | all
  | attended
  | pending
  | hasNotes
deriving DecidableEq, Repr

/-- JS truthiness of `searchQuery.trim()` being empty: the query
consists of whitespace only. -/
def isBlank (q : List Char) : Bool :=
  q.all Char.isWhitespace

/-- One step of the `filterMode` if-chain in `filteredGuests`:
whether a guest passes the selected attendance/notes filter.
`pending` is `is_attended !== true`; `hasNotes` is the truthiness of
`guest.description` (a `null` or empty description fails). -/
def modeKeep (m : FilterMode) (g : Guest) : Bool :=
  match m with
  | .all => true
  | .attended => g.is_attended = some true
  | .pending => !(g.is_attended = some true)
  | .hasNotes =>
    match g.description with
    | some d => !d.isEmpty
    | none => false

/-- The search predicate of `filteredGuests`:
`turkishIncludes(guest.full_name, q) || (guest.description && turkishIncludes(guest.description, q))`
(an empty description is falsy and short-circuits to false). -/
def guestMatches (g : Guest) (q : List Char) : Bool :=
  turkishIncludes g.full_name q ||
    (match g.description with
     | some d => !d.isEmpty && turkishIncludes d q
     | none => false)

/-- `filteredGuests` from src/frontend/src/App.tsx lines 208-232:
first the attendance/notes filter, then — only when the trimmed query
is non-empty — the Turkish-aware search filter. -/
def filteredGuests (gs : List Guest) (mode : FilterMode) (q : List Char) :
    List Guest :=
  let r :=
    match mode with
    | .all => gs
    | .attended => gs.filter (fun g => modeKeep .attended g)
    | .pending => gs.filter (fun g => modeKeep .pending g)
    | .hasNotes => gs.filter (fun g => modeKeep .hasNotes g)
  if isBlank q then r else r.filter (fun g => guestMatches g q)

/-! ## C1 theorems -/

/-- Composing two Boolean filters. -/
theorem filter_comp {α : Type} (p q : α → Bool) (l : List α) :
    (l.filter p).filter q = l.filter (fun a => p a && q a) := by
  induction l with
  | nil => rfl
  | cons x xs ih =>
    by_cases hp : p x <;> by_cases hq : q x <;>
      simp [List.filter_cons, hp, hq, ih]

/-- The mode step of `filteredGuests` is a single `modeKeep` filter. -/
theorem filteredGuests_mode_step (gs : List Guest) (mode : FilterMode)
    (q : List Char) :
    filteredGuests gs mode q =
      (if isBlank q then gs.filter (fun g => modeKeep mode g)
       else
        (gs.filter (fun g => modeKeep mode g)).filter
          (fun g => guestMatches g q)) := by
  cases mode <;> simp only [filteredGuests, modeKeep, List.filter_true]

/-- C1 (amended): among the guests kept by the attendance/notes filter
mode, `filteredGuests` retains exactly those whose `full_name` or
non-empty `description` contains the query under `turkishIncludes`,
provided the query is not blank; a blank (whitespace-only) query applies
no search filter; `turkishIncludes` is case-insensitive in both
arguments — its value depends only on the Turkish-lowercased forms — and
in particular `İ` matches `i` and `ı` matches `I`; it is however not
diacritic-insensitive. -/
theorem filteredGuests_search_characterization :
    (∀ (gs : List Guest) (mode : FilterMode) (q : List Char),
      isBlank q = false →
      filteredGuests gs mode q =
        gs.filter (fun g => modeKeep mode g && guestMatches g q)) ∧
    (∀ (gs : List Guest) (mode : FilterMode) (q : List Char),
      isBlank q = true →
      filteredGuests gs mode q = gs.filter (fun g => modeKeep mode g)) ∧
    (∀ t₁ t₂ s₁ s₂ : List Char,
      turkishLower t₁ = turkishLower t₂ → turkishLower s₁ = turkishLower s₂ →
      turkishIncludes t₁ s₁ = turkishIncludes t₂ s₂) ∧
    turkishIncludes ['İ'] ['i'] = true ∧
    turkishIncludes ['ı'] ['I'] = true := by
  refine ⟨?_, ?_, ?_, by decide, by decide⟩
  · intro gs mode q hq
    rw [filteredGuests_mode_step, hq]
    simp only [Bool.false_eq_true, if_false]
    exact filter_comp _ _ _
  · intro gs mode q hq
    rw [filteredGuests_mode_step, hq, if_pos rfl]
  · intro t₁ t₂ s₁ s₂ ht hs
    unfold turkishIncludes
    rw [ht, hs]

/-- Witness for C1's amended theorem at concrete inputs. -/
theorem filteredGuests_search_characterization_witness :
    filteredGuests
        [{ id := 1, full_name := ['A', 'y', 'ş', 'e'], person_count := 1,
           desk_no := 2, gift_count := 0, description := none,
           is_attended := some true, display_order := none }]
        FilterMode.attended ['ş', 'E'] =
      [{ id := 1, full_name := ['A', 'y', 'ş', 'e'], person_count := 1,
         desk_no := 2, gift_count := 0, description := none,
         is_attended := some true, display_order := none }] := by
  rw [filteredGuests_search_characterization.1 _ _ _ (by decide)]
  decide

/-- C1 (counterexample to the claim as stated): the comparison is not
diacritic-insensitive (`ö` does not match `o`); with the `attended`
filter mode a matching guest that is not attended is dropped, so
retention is not determined by the search match alone; and with a
whitespace-only query a guest whose name does not contain the query is
retained anyway. -/
theorem filteredGuests_search_claim_counterexample :
    turkishIncludes ['ö'] ['o'] = false ∧
    filteredGuests
        [{ id := 1, full_name := ['x'], person_count := 1, desk_no := 1,
           gift_count := 0, description := none, is_attended := none,
           display_order := none }]
        FilterMode.attended ['x'] = [] ∧
    filteredGuests
        [{ id := 1, full_name := ['a', 'b'], person_count := 1, desk_no := 1,
           gift_count := 0, description := none, is_attended := none,
           display_order := none }]
        FilterMode.all [' '] =
      [{ id := 1, full_name := ['a', 'b'], person_count := 1, desk_no := 1,
         gift_count := 0, description := none, is_attended := none,
         display_order := none }] ∧
    turkishIncludes ['a', 'b'] [' '] = false := by
  refine ⟨by decide, by decide, by decide, by decide⟩

/-! ## Splitting a multi-person guest (src/frontend/src/App.tsx,
`handleSplitGuest`, offline/local branch) -/

/-- `Math.max(...guests.map((g) => g.id), 0)`. -/
def maxId (gs : List Guest) : Int :=
  gs.foldr (fun g acc => max g.id acc) 0

/-- The `i`-th new guest built in the split loop (`newGuest` with the
locally generated id `maxId + i + 1`). -/
def splitChild (g : Guest) (base : Int) (i : Nat) : Guest :=
  { id := base + i + 1
    full_name := g.full_name ++ (" - Kişi ".data ++ (toString (i + 1)).data)
    person_count := 1
    desk_no := g.desk_no
    gift_count := if i = 0 then g.gift_count else 0
    description := if i = 0 then g.description else none
    is_attended := none
    display_order := some i }

/-- `handleSplitGuest` from src/frontend/src/App.tsx lines 352-393 in
the local branch: no-op when `person_count <= 1`, otherwise the final
`setGuests` state — every guest with the original's id removed, and one
new single-person guest appended per loop iteration. -/
def handleSplitGuest (gs : List Guest) (g : Guest) : List Guest :=
  if g.person_count ≤ 1 then gs
  else
    gs.filter (fun h => h.id != g.id) ++
      (List.range g.person_count.toNat).map (splitChild g (maxId gs))

/-- Every member's id is bounded by `maxId`. -/
theorem le_maxId (gs : List Guest) (g : Guest) (h : g ∈ gs) :
    g.id ≤ maxId gs := by
  induction gs with
  | nil => cases h
  | cons x xs ih =>
    rcases List.mem_cons.mp h with rfl | hxs
    · exact le_max_left _ _
    · exact le_trans (ih hxs) (le_max_right _ _)

/-- C2: splitting a guest with `person_count > 1` removes the original
and appends exactly `person_count` new entries, each single-person and
on the same desk, the first carrying the gifts and description, the
rest with `gift_count` 0 and no description; splitting a guest with
`person_count <= 1` leaves the list unchanged. -/
theorem handleSplitGuest_spec (gs : List Guest) (g : Guest) (hg : g ∈ gs) :
    (1 < g.person_count →
      handleSplitGuest gs g =
        gs.filter (fun h => h.id != g.id) ++
          (List.range g.person_count.toNat).map (splitChild g (maxId gs)) ∧
      (((List.range g.person_count.toNat).map
          (splitChild g (maxId gs))).length : Int) = g.person_count ∧
      (∀ i, (splitChild g (maxId gs) i).person_count = 1 ∧
        (splitChild g (maxId gs) i).desk_no = g.desk_no ∧
        (splitChild g (maxId gs) i).gift_count =
          (if i = 0 then g.gift_count else 0) ∧
        (splitChild g (maxId gs) i).description =
          (if i = 0 then g.description else none)) ∧
      (∀ h ∈ handleSplitGuest gs g, h.id ≠ g.id)) ∧
    (g.person_count ≤ 1 → handleSplitGuest gs g = gs) := by
  constructor
  · intro h1
    have hnle : ¬g.person_count ≤ 1 := not_le.mpr h1
    refine ⟨by rw [handleSplitGuest, if_neg hnle], ?_, ?_, ?_⟩
    · rw [List.length_map, List.length_range]
      exact Int.toNat_of_nonneg (by omega)
    · intro i
      exact ⟨rfl, rfl, rfl, rfl⟩
    · intro h hmem
      rw [handleSplitGuest, if_neg hnle] at hmem
      rcases List.mem_append.mp hmem with hf | hn
      · have := (List.mem_filter.mp hf).2
        simpa using this
      · rcases List.mem_map.mp hn with ⟨i, _, rfl⟩
        have hle := le_maxId gs g hg
        show maxId gs + (i : Int) + 1 ≠ g.id
        omega
  · intro hle
    rw [handleSplitGuest, if_pos hle]

/-- Witness for C2 at a concrete two-person guest. -/
theorem handleSplitGuest_spec_witness :
    handleSplitGuest
        [{ id := 5, full_name := ['a'], person_count := 2, desk_no := 3,
           gift_count := 4, description := some ['d'], is_attended := none,
           display_order := none }]
        { id := 5, full_name := ['a'], person_count := 2, desk_no := 3,
          gift_count := 4, description := some ['d'], is_attended := none,
          display_order := none } =
      [splitChild
          { id := 5, full_name := ['a'], person_count := 2, desk_no := 3,
            gift_count := 4, description := some ['d'], is_attended := none,
            display_order := none } 5 0,
        splitChild
          { id := 5, full_name := ['a'], person_count := 2, desk_no := 3,
            gift_count := 4, description := some ['d'], is_attended := none,
            display_order := none } 5 1] := by
  rw [(handleSplitGuest_spec _ _ (by decide)).1 (by decide) |>.1]
  rfl

/-! ## Toggling attendance (src/frontend/src/App.tsx,
`handleToggleAttendance`) -/

/-- `const newStatus = guest.is_attended === true ? null : true`. -/
def nextStatus (s : Option Bool) : Option Bool :=
  if s = some true then none else some true

/-- The optimistic `setGuests` update of `handleToggleAttendance`:
every entry with the clicked guest's id gets the new status, every
other entry is returned as-is. -/
def handleToggleAttendance (gs : List Guest) (guest : Guest) : List Guest :=
  gs.map (fun g =>
    if g.id = guest.id then { g with is_attended := nextStatus guest.is_attended }
    else g)

/-- C3: one toggle sends `true` to `null` and anything else (`null` or
`false`) to `true`; starting from `true` or `null`, toggling twice
restores the original status; and in the list a toggled entry's
`is_attended` becomes exactly `nextStatus` of the clicked guest's
status. -/
theorem toggleAttendance_two_state :
    (∀ s : Option Bool,
      (s = some true → nextStatus s = none) ∧
      (s ≠ some true → nextStatus s = some true) ∧
      (s = some true ∨ s = none → nextStatus (nextStatus s) = s)) ∧
    (∀ (gs : List Guest) (guest : Guest) (i : Nat) (old : Guest),
      gs[i]? = some old → old.id = guest.id →
      (handleToggleAttendance gs guest)[i]? =
        some { old with is_attended := nextStatus guest.is_attended }) := by
  constructor
  · intro s
    refine ⟨?_, ?_, ?_⟩
    · intro h; rw [nextStatus, if_pos h]
    · intro h; rw [nextStatus, if_neg h]
    · rintro (rfl | rfl) <;> rfl
  · intro gs guest i old hold hid
    rw [handleToggleAttendance, List.getElem?_map, hold]
    simp [hid]

/-- Witness for C3 at concrete statuses and a concrete list. -/
theorem toggleAttendance_two_state_witness :
    nextStatus (some true) = none ∧
    nextStatus none = some true ∧
    nextStatus (nextStatus (some true)) = some true ∧
    (handleToggleAttendance
        [{ id := 1, full_name := ['a'], person_count := 1, desk_no := 1,
           gift_count := 0, description := none, is_attended := some true,
           display_order := none }]
        { id := 1, full_name := ['a'], person_count := 1, desk_no := 1,
          gift_count := 0, description := none, is_attended := some true,
          display_order := none })[0]? =
      some { id := 1, full_name := ['a'], person_count := 1, desk_no := 1,
             gift_count := 0, description := none, is_attended := none,
             display_order := none } := by
  refine ⟨(toggleAttendance_two_state.1 (some true)).1 rfl,
    ((toggleAttendance_two_state.1 none).2.1 (by decide)),
    ?_, ?_⟩
  · rw [(toggleAttendance_two_state.1 (some true)).1 rfl]
    rfl
  · exact toggleAttendance_two_state.2 _ _ 0 _ rfl rfl

/-- C9: toggling attendance preserves the list's length and order,
leaves every entry with a different id untouched, and changes nothing
but `is_attended` on the matching entries. -/
theorem handleToggleAttendance_frame (gs : List Guest) (guest : Guest) :
    (handleToggleAttendance gs guest).length = gs.length ∧
    (∀ (i : Nat) (old : Guest), gs[i]? = some old → old.id ≠ guest.id →
      (handleToggleAttendance gs guest)[i]? = some old) ∧
    (∀ (i : Nat) (old new : Guest), gs[i]? = some old →
      (handleToggleAttendance gs guest)[i]? = some new →
      new.id = old.id ∧ new.full_name = old.full_name ∧
      new.person_count = old.person_count ∧ new.desk_no = old.desk_no ∧
      new.gift_count = old.gift_count ∧ new.description = old.description ∧
      new.display_order = old.display_order) := by
  refine ⟨List.length_map _ _, ?_, ?_⟩
  · intro i old hold hne
    rw [handleToggleAttendance, List.getElem?_map, hold]
    simp [hne]
  · intro i old new hold hnew
    rw [handleToggleAttendance, List.getElem?_map, hold] at hnew
    have h' : (if old.id = guest.id
        then { old with is_attended := nextStatus guest.is_attended }
        else old) = new := by
      injection hnew
    subst h'
    by_cases h : old.id = guest.id <;> simp [h]

/-- Witness for C9 on a concrete two-guest list. -/
theorem handleToggleAttendance_frame_witness :
    (handleToggleAttendance
        [{ id := 1, full_name := ['a'], person_count := 1, desk_no := 1,
           gift_count := 0, description := none, is_attended := none,
           display_order := none },
         { id := 2, full_name := ['b'], person_count := 1, desk_no := 1,
           gift_count := 0, description := none, is_attended := none,
           display_order := none }]
        { id := 1, full_name := ['a'], person_count := 1, desk_no := 1,
          gift_count := 0, description := none, is_attended := none,
          display_order := none })[1]? =
      some { id := 2, full_name := ['b'], person_count := 1, desk_no := 1,
             gift_count := 0, description := none, is_attended := none,
             display_order := none } := by
  exact (handleToggleAttendance_frame _ _).2.1 1 _ rfl (by decide)

/-! ## Desk creation dialog
(src/frontend/src/components/CreateDeskDialog.tsx, `handleCreate`) -/

/-- Outcome of `handleCreate`: either one of the two validation errors
(`setError` + early return, the callback is not invoked) or the
invocation of `onCreateDesk(deskNo)`. -/
inductive CreateDeskOutcome where
  | errorDuplicate
  | errorRange
  | created (deskNo : Int)
deriving DecidableEq, Repr

/-- `handleCreate` from CreateDeskDialog.tsx lines 35-57: reject a desk
number already in `existingDeskNumbers`, then reject one outside
`1..999`, otherwise call `onCreateDesk(deskNo)`. -/
def handleCreateDesk (existing : List Int) (deskNo : Int) : CreateDeskOutcome :=
  if deskNo ∈ existing then .errorDuplicate
  else if deskNo < 1 ∨ 999 < deskNo then .errorRange
  else .created deskNo

/-- C4: the desk-creation callback is invoked exactly when the
requested number is absent from the existing list and lies in
`1..999`; a duplicate number or an out-of-range number yields an error
outcome instead. -/
theorem handleCreateDesk_spec (existing : List Int) (deskNo : Int) :
    (handleCreateDesk existing deskNo = .created deskNo ↔
      deskNo ∉ existing ∧ 1 ≤ deskNo ∧ deskNo ≤ 999) ∧
    (deskNo ∈ existing → handleCreateDesk existing deskNo = .errorDuplicate) ∧
    (deskNo ∉ existing → deskNo < 1 ∨ 999 < deskNo →
      handleCreateDesk existing deskNo = .errorRange) := by
  refine ⟨?_, ?_, ?_⟩
  · constructor
    · intro h
      by_cases hmem : deskNo ∈ existing
      · rw [handleCreateDesk, if_pos hmem] at h; cases h
      · by_cases hrange : deskNo < 1 ∨ 999 < deskNo
        · rw [handleCreateDesk, if_neg hmem, if_pos hrange] at h; cases h
        · exact ⟨hmem, by omega⟩
    · rintro ⟨hmem, h1, h2⟩
      rw [handleCreateDesk, if_neg hmem, if_neg (by omega)]
  · intro hmem
    rw [handleCreateDesk, if_pos hmem]
  · intro hmem hrange
    rw [handleCreateDesk, if_neg hmem, if_pos hrange]

/-- Witness for C4 at concrete inputs. -/
theorem handleCreateDesk_spec_witness :
    handleCreateDesk [1, 2] 3 = .created 3 ∧
    handleCreateDesk [1, 2] 2 = .errorDuplicate ∧
    handleCreateDesk [1, 2] 1000 = .errorRange := by
  refine ⟨(handleCreateDesk_spec [1, 2] 3).1.mpr (by decide),
    (handleCreateDesk_spec [1, 2] 2).2.1 (by decide),
    (handleCreateDesk_spec [1, 2] 1000).2.2 (by decide) (by decide)⟩

/-! ## Backend-call failure handling (src/frontend/src/lib/supabase.ts
and `handleDeleteGuest` in src/frontend/src/App.tsx) -/

/-- Outcome of an attempted Supabase call: success, an error value in
the response, or a thrown exception (caught by the `try`/`catch`). -/
inductive CallOutcome where
  | ok
  | dbError
  | exn
deriving DecidableEq, Repr

/-- `deleteGuestFromDB`: `false` when the client is absent, `false` on
a response error or a caught exception, `true` on success. -/
def deleteGuestFromDB (clientPresent : Bool) (o : CallOutcome) : Bool :=
  if clientPresent then
    match o with
    | .ok => true
    | .dbError => false
    | .exn => false
  else false

/-- `updateGuestInDB`: same failure shape as `deleteGuestFromDB`. -/
def updateGuestInDB (clientPresent : Bool) (o : CallOutcome) : Bool :=
  if clientPresent then
    match o with
    | .ok => true
    | .dbError => false
    | .exn => false
  else false

/-- `createGuestInDB`: `null` when the client is absent or the call
fails, the inserted row on success. -/
def createGuestInDB (clientPresent : Bool) (o : CallOutcome) (row : Guest) :
    Option Guest :=
  if clientPresent then
    match o with
    | .ok => some row
    | .dbError => none
    | .exn => none
  else none

/-- Shape of a fixed object (`'rectangle' | 'triangle'`). -/
inductive ObjType where
  | rectangle
  | triangle
deriving DecidableEq, Repr

/-- The `FixedObjectData` interface of
src/frontend/src/hooks/useFixedObjects.ts (same fields as the
`FixedObjectDB` row of src/frontend/src/lib/supabase.ts). -/
structure FixedObjectData where
  id : String
  type : ObjType
  name : String
  x : Int
  y : Int
  width : Int
  height : Int
  rotation : Int
deriving DecidableEq, Repr

/-- `loadFixedObjectsFromDB`: the empty list when the client is absent
or the call fails, the fetched rows on success. -/
def loadFixedObjectsFromDB (clientPresent : Bool) (o : CallOutcome)
    (rows : List FixedObjectData) : List FixedObjectData :=
  if clientPresent then
    match o with
    | .ok => rows
    | .dbError => []
    | .exn => []
  else []

/-- `handleDeleteGuest` from src/frontend/src/App.tsx lines 336-345:
the optimistic `setGuests` filter runs unconditionally; the backend
call's outcome (passed here for comparison) is never consulted. -/
def handleDeleteGuestState (gs : List Guest) (id : Int)
    (_clientPresent _offline : Bool) (_o : CallOutcome) : List Guest :=
  gs.filter (fun g => g.id != id)

/-- C5: every Supabase helper returns its failure value (`false` or
`null`) instead of propagating, both when the client is absent and when
the call errors or throws; and the local guest list after a delete is
identical whatever the backend outcome — the guest stays removed. -/
theorem backend_failures_caught :
    (∀ o, deleteGuestFromDB false o = false) ∧
    deleteGuestFromDB true .dbError = false ∧
    deleteGuestFromDB true .exn = false ∧
    deleteGuestFromDB true .ok = true ∧
    (∀ o, updateGuestInDB false o = false) ∧
    updateGuestInDB true .dbError = false ∧
    updateGuestInDB true .exn = false ∧
    (∀ o row, createGuestInDB false o row = none) ∧
    (∀ row, createGuestInDB true .dbError row = none) ∧
    (∀ row, createGuestInDB true .exn row = none) ∧
    (∀ o rows, loadFixedObjectsFromDB false o rows = []) ∧
    (∀ rows, loadFixedObjectsFromDB true .dbError rows = []) ∧
    (∀ rows, loadFixedObjectsFromDB true .exn rows = []) ∧
    (∀ gs id cp off o o',
      handleDeleteGuestState gs id cp off o =
        handleDeleteGuestState gs id cp off o') ∧
    (∀ gs id cp off o g, g ∈ handleDeleteGuestState gs id cp off o →
      g.id ≠ id) := by
  refine ⟨fun o => rfl, rfl, rfl, rfl, fun o => rfl, rfl, rfl,
    fun o row => rfl, fun row => rfl, fun row => rfl,
    fun o rows => rfl, fun rows => rfl, fun rows => rfl,
    fun gs id cp off o o' => rfl, ?_⟩
  intro gs id cp off o g hmem
  have := (List.mem_filter.mp hmem).2
  simpa using this

/-- Witness for C5: a surviving guest's id differs from the deleted id
even when the backend call fails. -/
theorem backend_failures_caught_witness :
    ({ id := 7, full_name := ['a'], person_count := 1, desk_no := 1,
       gift_count := 0, description := none, is_attended := none,
       display_order := none } : Guest).id ≠ 5 :=
  backend_failures_caught.2.2.2.2.2.2.2.2.2.2.2.2.2.2
    [{ id := 7, full_name := ['a'], person_count := 1, desk_no := 1,
       gift_count := 0, description := none, is_attended := none,
       display_order := none }] 5 true false CallOutcome.dbError _ (by decide)

/-! ## Fixed-object creation and rotation
(src/frontend/src/hooks/useFixedObjects.ts `addObject`,
src/unnamed/part_004 `handleRotate`) -/

/-- The `newObject` literal of `addObject`: position from the optional
arguments or the random default `200 + Math.random() * 200` (the random
draw is passed in as `rx`/`ry`), dimensions by shape, `rotation: 0`.
When the Supabase insert succeeds only the id is replaced, so the
created object's rotation is 0 in every branch. -/
def mkFixedObject (idStr : String) (t : ObjType) (name : String)
    (x? y? : Option Int) (rx ry : Int) : FixedObjectData :=
  { id := idStr
    type := t
    name := name
    x := x?.getD (200 + rx)
    y := y?.getD (200 + ry)
    width := if t = .rectangle then 100 else 80
    height := if t = .rectangle then 60 else 80
    rotation := 0 }

/-- `handleRotate` from src/unnamed/part_004 lines 65-73 composed with
`updateObject`: the clicked object's rotation becomes
`(rotation + 90) % 360`, the rest of its fields are spread through. -/
def rotateObject (o : FixedObjectData) : FixedObjectData :=
  { o with rotation := (o.rotation + 90) % 360 }

/-- A create or rotate step on the fixed-object list. -/
inductive FOStep where
  | add (idStr : String) (t : ObjType) (name : String)
      (x? y? : Option Int) (rx ry : Int)
  | rotate (id : String)

/-- Applying one step: `addObject` appends the new object
(`setObjects((prev) => [...prev, newObject])`); a rotate click routes
`handleRotate`'s object through `updateObject`, which replaces the
entry with the matching id. -/
def applyFOStep (objs : List FixedObjectData) : FOStep → List FixedObjectData
  | .add idStr t name x? y? rx ry =>
    objs ++ [mkFixedObject idStr t name x? y? rx ry]
  | .rotate id => objs.map (fun o => if o.id = id then rotateObject o else o)

/-- The rotation values allowed by the schema CHECK constraint. -/
def rotationOK (o : FixedObjectData) : Prop :=
  o.rotation = 0 ∨ o.rotation = 90 ∨ o.rotation = 180 ∨ o.rotation = 270

instance (o : FixedObjectData) : Decidable (rotationOK o) := by
  unfold rotationOK; infer_instance

/-- One step preserves the rotation invariant. -/
theorem applyFOStep_rotationOK (objs : List FixedObjectData) (s : FOStep)
    (h : ∀ o ∈ objs, rotationOK o) :
    ∀ o ∈ applyFOStep objs s, rotationOK o := by
  cases s with
  | add idStr t name x? y? rx ry =>
    intro o ho
    rcases List.mem_append.mp ho with ho | ho
    · exact h o ho
    · rcases List.mem_singleton.mp ho with rfl
      left; rfl
  | rotate id =>
    intro o ho
    rcases List.mem_map.mp ho with ⟨p, hp, rfl⟩
    by_cases hid : p.id = id
    · rw [if_pos hid]
      rcases h p hp with h0 | h0 | h0 | h0 <;>
        simp [rotateObject, h0, rotationOK]
    · rw [if_neg hid]
      exact h p hp

/-- C6: a freshly created fixed object has rotation 0 (hence in
{0, 90, 180, 270}); rotating maps each value of {0, 90, 180, 270} to
`(r + 90) % 360`, again in the set; and along any sequence of create
and rotate steps from a list satisfying the invariant, every object's
rotation stays in {0, 90, 180, 270}. -/
theorem fixedObject_rotation_invariant :
    (∀ idStr t name x? y? rx ry,
      (mkFixedObject idStr t name x? y? rx ry).rotation = 0) ∧
    (∀ o : FixedObjectData, rotationOK o →
      (rotateObject o).rotation = (o.rotation + 90) % 360 ∧
      rotationOK (rotateObject o)) ∧
    (∀ (objs : List FixedObjectData) (steps : List FOStep),
      (∀ o ∈ objs, rotationOK o) →
      ∀ o ∈ steps.foldl applyFOStep objs, rotationOK o) := by
  refine ⟨fun idStr t name x? y? rx ry => rfl, ?_, ?_⟩
  · intro o ho
    refine ⟨rfl, ?_⟩
    rcases ho with h0 | h0 | h0 | h0 <;> simp [rotateObject, h0, rotationOK]
  · intro objs steps
    induction steps generalizing objs with
    | nil => intro h o ho; exact h o ho
    | cons s rest ih =>
      intro h o ho
      exact ih (applyFOStep objs s) (applyFOStep_rotationOK objs s h) o ho

/-- Witness for C6: two steps from the empty list. -/
theorem fixedObject_rotation_invariant_witness :
    rotationOK
      { id := "obj_1", type := ObjType.rectangle, name := "n", x := 200,
        y := 200, width := 100, height := 60, rotation := 90 } :=
  fixedObject_rotation_invariant.2.2 []
    [FOStep.add "obj_1" ObjType.rectangle "n" none none 0 0,
      FOStep.rotate "obj_1"]
    (by intro o ho; cases ho)
    { id := "obj_1", type := ObjType.rectangle, name := "n", x := 200,
      y := 200, width := 100, height := 60, rotation := 90 }
    (by decide)

/-! ## Local-storage records

A parsed JSON record (`Record<string, T>`) is modelled as an
association list in which the entry written last stands first;
`lookupRec` returns the first (most recent) binding of a key. -/

/-- First-match lookup in an association list. -/
def lookupRec {α β : Type} [DecidableEq α] :
    List (α × β) → α → Option β
  | [], _ => none
  | (k', v) :: rest, k => if k = k' then some v else lookupRec rest k

/-- `current[name] = note` on a record: bind `name`, shadowing any
previous binding. -/
def setKey {α β : Type} [DecidableEq α] (m : List (α × β)) (k : α) (v : β) :
    List (α × β) :=
  (k, v) :: m.filter (fun p => p.1 ≠ k)

/-- `delete current[name]` on a record: drop the binding of `name`. -/
def delKey {α β : Type} [DecidableEq α] (m : List (α × β)) (k : α) :
    List (α × β) :=
  m.filter (fun p => p.1 ≠ k)

theorem lookupRec_filter_ne {α β : Type} [DecidableEq α]
    (m : List (α × β)) (k k' : α) (h : k' ≠ k) :
    lookupRec (m.filter (fun p => p.1 ≠ k)) k' = lookupRec m k' := by
  induction m with
  | nil => rfl
  | cons p rest ih =>
    by_cases hk : p.1 ≠ k
    · rw [List.filter_cons_of_pos (by simpa using hk)]
      by_cases hk' : k' = p.1
      · rw [lookupRec, if_pos hk', lookupRec, if_pos hk']
      · rw [lookupRec, if_neg hk', lookupRec, if_neg hk', ih]
    · rw [List.filter_cons_of_neg (by simpa using hk)]
      have : ¬k' = p.1 := by
        intro hcon
        exact h (hcon.trans (not_not.mp hk))
      rw [lookupRec, if_neg this, ih]

theorem lookupRec_filter_self {α β : Type} [DecidableEq α]
    (m : List (α × β)) (k : α) :
    lookupRec (m.filter (fun p => p.1 ≠ k)) k = none := by
  induction m with
  | nil => rfl
  | cons p rest ih =>
    by_cases hk : p.1 ≠ k
    · rw [List.filter_cons_of_pos (by simpa using hk)]
      rw [lookupRec, if_neg (fun hcon => hk hcon.symm), ih]
    · rw [List.filter_cons_of_neg (by simpa using hk)]
      exact ih

/-! ## Saving notes (src/frontend/src/lib/supabase.ts,
`saveLocalNotes` / `getLocalNotes`) -/

/-- `saveLocalNotes(guestName, note)` acting on the parsed notes
record: a truthy (non-empty) note is bound, an empty note deletes the
binding, and the updated record is written back. -/
def saveLocalNotesMap (m : List (List Char × List Char))
    (name note : List Char) : List (List Char × List Char) :=
  if note.isEmpty then delKey m name else setKey m name note

/-- C10: after `saveLocalNotes(name, note)` the notes record read back
by `getLocalNotes` binds `name` to `note` exactly when `note` is
non-empty, holds no binding for `name` when `note` is empty, and binds
every other name exactly as before. -/
theorem saveLocalNotes_roundtrip (m : List (List Char × List Char))
    (name note : List Char) :
    (lookupRec (saveLocalNotesMap m name note) name =
      if note.isEmpty then none else some note) ∧
    (∀ k, k ≠ name →
      lookupRec (saveLocalNotesMap m name note) k = lookupRec m k) := by
  constructor
  · by_cases he : note.isEmpty
    · rw [saveLocalNotesMap, if_pos he, if_pos he]
      exact lookupRec_filter_self m name
    · rw [saveLocalNotesMap, if_neg he, if_neg he, setKey, lookupRec,
        if_pos rfl]
  · intro k hk
    by_cases he : note.isEmpty
    · rw [saveLocalNotesMap, if_pos he]
      exact lookupRec_filter_ne m name k hk
    · rw [saveLocalNotesMap, if_neg he, setKey, lookupRec, if_neg hk]
      exact lookupRec_filter_ne m name k hk

/-- Witness for C10 at a concrete record. -/
theorem saveLocalNotes_roundtrip_witness :
    lookupRec
        (saveLocalNotesMap [(['b'], ['v'])] ['a'] ['n']) ['b'] =
      some ['v'] := by
  rw [(saveLocalNotes_roundtrip [(['b'], ['v'])] ['a'] ['n']).2 ['b']
    (by decide)]
  rfl

/-! ## Local fallback conversion (src/frontend/src/lib/supabase.ts,
`convertRawGuest`) -/

/-- `convertRawGuest(raw, index)` with the parsed attendance and notes
records passed explicitly: `id` is `index + 1`; the description is the
stored note when truthy (`localNotes[name] || raw.description`),
otherwise the raw description; `is_attended` is
`localAttendance[name] ?? null` (a stored `null` and an absent entry
both give `null`). -/
def convertRawGuest (att : List (List Char × Option Bool))
    (notes : List (List Char × List Char)) (raw : GuestRaw) (index : Nat) :
    Guest :=
  { id := (index : Int) + 1
    full_name := raw.fullName
    person_count := raw.personCount
    desk_no := raw.deskNo
    gift_count := raw.giftCount
    description :=
      match lookupRec notes raw.fullName with
      | some n => if n.isEmpty then raw.description else some n
      | none => raw.description
    is_attended :=
      match lookupRec att raw.fullName with
      | some v => v
      | none => none
    display_order := none }

/-- C7: the converted `i`-th raw guest has `id = i + 1`, copies
`full_name`, `person_count`, `desk_no` and `gift_count` from the raw
record, takes `is_attended` from the stored attendance override when
one is present (and `null` otherwise), and takes `description` from the
stored note when a non-empty one is present (and the raw description
otherwise). -/
theorem convertRawGuest_spec (att : List (List Char × Option Bool))
    (notes : List (List Char × List Char)) (raw : GuestRaw) (index : Nat) :
    (convertRawGuest att notes raw index).id = (index : Int) + 1 ∧
    (convertRawGuest att notes raw index).full_name = raw.fullName ∧
    (convertRawGuest att notes raw index).person_count = raw.personCount ∧
    (convertRawGuest att notes raw index).desk_no = raw.deskNo ∧
    (convertRawGuest att notes raw index).gift_count = raw.giftCount ∧
    (∀ v, lookupRec att raw.fullName = some v →
      (convertRawGuest att notes raw index).is_attended = v) ∧
    (lookupRec att raw.fullName = none →
      (convertRawGuest att notes raw index).is_attended = none) ∧
    (∀ n, lookupRec notes raw.fullName = some n → n ≠ [] →
      (convertRawGuest att notes raw index).description = some n) ∧
    (lookupRec notes raw.fullName = none ∨
        lookupRec notes raw.fullName = some [] →
      (convertRawGuest att notes raw index).description = raw.description) := by
  refine ⟨rfl, rfl, rfl, rfl, rfl, ?_, ?_, ?_, ?_⟩
  · intro v hv
    simp only [convertRawGuest, hv]
  · intro hv
    simp only [convertRawGuest, hv]
  · intro n hn hne
    simp only [convertRawGuest, hn]
    rw [if_neg (by simpa using hne)]
  · rintro (hn | hn) <;> simp [convertRawGuest, hn]

/-- Witness for C7 at a concrete raw guest with a stored override and
a stored note. -/
theorem convertRawGuest_spec_witness :
    (convertRawGuest [(['a'], some false)] [(['a'], ['n'])]
        { fullName := ['a'], personCount := 2, deskNo := 3, giftCount := 1,
          description := some ['d'] } 4).is_attended = some false ∧
    (convertRawGuest [(['a'], some false)] [(['a'], ['n'])]
        { fullName := ['a'], personCount := 2, deskNo := 3, giftCount := 1,
          description := some ['d'] } 4).description = some ['n'] := by
  constructor
  · exact (convertRawGuest_spec [(['a'], some false)] [(['a'], ['n'])]
      { fullName := ['a'], personCount := 2, deskNo := 3, giftCount := 1,
        description := some ['d'] } 4).2.2.2.2.2.1 (some false) rfl
  · exact (convertRawGuest_spec [(['a'], some false)] [(['a'], ['n'])]
      { fullName := ['a'], personCount := 2, deskNo := 3, giftCount := 1,
        description := some ['d'] } 4).2.2.2.2.2.2.2.1 ['n'] rfl (by decide)

/-! ## Table positions (src/frontend/src/hooks/useTablePositions.ts) -/

/-- An x/y table position. -/
structure TablePos where
  x : Int
  y : Int
deriving DecidableEq, Repr

/-- `Math.ceil(Math.sqrt(n))` on a natural count. -/
def colsFor (n : Nat) : Nat :=
  if Nat.sqrt n * Nat.sqrt n = n then Nat.sqrt n else Nat.sqrt n + 1

/-- The grid default of `generateDefaultPositions` for the `i`-th desk:
`x = (i % cols) * spacingX + offsetX`,
`y = floor(i / cols) * spacingY + offsetY` with spacing 220 and
offset 150. -/
def defaultPos (ncols i : Nat) : TablePos :=
  { x := ((i % ncols) * 220 + 150 : Nat)
    y := (i / ncols * 220 + 150 : Nat) }

/-- `generateDefaultPositions(deskNumbers)`: the `reduce` over the
indexed desk numbers, building the positions record (modelled with the
most recent write first). -/
def generateDefaultPositions (ds : List Int) : List (Int × TablePos) :=
  ds.enum.foldl
    (fun acc p => (p.2, defaultPos (colsFor ds.length) p.1) :: acc) []

/-- JS object spread `{...a, ...b}`: bindings of `b` shadow those of
`a`. -/
def recSpread (a b : List (Int × TablePos)) : List (Int × TablePos) :=
  b ++ a

/-- The merged record built in `loadFromSupabase`:
`{ ...defaultPositions, ...prev, ...supabasePositions }`. -/
def mergedPositions (supa prev : List (Int × TablePos)) (ds : List Int) :
    List (Int × TablePos) :=
  recSpread (recSpread (generateDefaultPositions ds) prev) supa

/-- `a ?? b` on options: the first binding that exists. -/
def firstSome {β : Type} (a b : Option β) : Option β :=
  match a with
  | some v => some v
  | none => b

theorem lookupRec_append {α β : Type} [DecidableEq α]
    (a b : List (α × β)) (k : α) :
    lookupRec (a ++ b) k = firstSome (lookupRec a k) (lookupRec b k) := by
  induction a with
  | nil => rfl
  | cons p rest ih =>
    rw [List.cons_append]
    by_cases hk : k = p.1
    · rw [lookupRec, if_pos hk, lookupRec, if_pos hk]
      rfl
    · rw [lookupRec, if_neg hk, lookupRec, if_neg hk, ih]

theorem lookupRec_eq_none {α β : Type} [DecidableEq α]
    (m : List (α × β)) (k : α) (h : k ∉ m.map Prod.fst) :
    lookupRec m k = none := by
  induction m with
  | nil => rfl
  | cons p rest ih =>
    rw [List.map_cons, List.mem_cons] at h
    push_neg at h
    rw [lookupRec, if_neg h.1, ih h.2]

theorem lookupRec_reverse {α β : Type} [DecidableEq α]
    (m : List (α × β)) (k : α) (h : (m.map Prod.fst).Nodup) :
    lookupRec m.reverse k = lookupRec m k := by
  induction m with
  | nil => rfl
  | cons p rest ih =>
    obtain ⟨k', v⟩ := p
    rw [List.map_cons, List.nodup_cons] at h
    rw [List.reverse_cons, lookupRec_append, ih h.2]
    by_cases hk : k = k'
    · subst hk
      rw [lookupRec_eq_none rest k h.1]
      simp [lookupRec, firstSome]
    · simp only [lookupRec, if_neg hk]
      cases lookupRec rest k <;> rfl

theorem foldl_prepend_map {α β : Type} (f : α → β) (l : List α)
    (acc : List β) :
    l.foldl (fun acc x => f x :: acc) acc = (l.map f).reverse ++ acc := by
  induction l generalizing acc with
  | nil => rfl
  | cons x xs ih =>
    rw [List.foldl_cons, ih, List.map_cons, List.reverse_cons,
      List.append_assoc, List.singleton_append]

theorem generateDefaultPositions_eq (ds : List Int) :
    generateDefaultPositions ds =
      (ds.enum.map
        (fun p => (p.2, defaultPos (colsFor ds.length) p.1))).reverse := by
  rw [generateDefaultPositions, foldl_prepend_map, List.append_nil]

theorem lookupRec_enumFrom {α β : Type} [DecidableEq α] (f : Nat → β) :
    ∀ (ds : List α) (n i : Nat) (hi : i < ds.length), ds.Nodup →
      lookupRec ((List.enumFrom n ds).map (fun p => (p.2, f p.1)))
          (ds.get ⟨i, hi⟩) =
        some (f (n + i)) := by
  intro ds
  induction ds with
  | nil => intro n i hi; cases hi
  | cons d rest ih =>
    intro n i hi hnd
    rw [List.nodup_cons] at hnd
    match i with
    | 0 =>
      rw [List.enumFrom_cons, List.map_cons]
      show lookupRec _ d = _
      rw [lookupRec, if_pos rfl]
      rfl
    | j + 1 =>
      have hj : j < rest.length := Nat.lt_of_succ_lt_succ hi
      rw [List.enumFrom_cons, List.map_cons]
      show lookupRec _ (rest.get ⟨j, hj⟩) = _
      have hne : ¬(rest.get ⟨j, hj⟩ = (n, d).2) := fun hcon =>
        have hcon' : rest.get ⟨j, hj⟩ = d := hcon
        hnd.1 (hcon' ▸ List.get_mem rest j hj)
      rw [lookupRec, if_neg hne, ih (n + 1) j hj hnd.2]
      rw [Nat.add_assoc, Nat.add_comm 1 j]

/-- Looking up the `i`-th desk in the generated defaults. -/
theorem lookupRec_generateDefault (ds : List Int) (hnd : ds.Nodup)
    (i : Nat) (hi : i < ds.length) :
    lookupRec (generateDefaultPositions ds) (ds.get ⟨i, hi⟩) =
      some (defaultPos (colsFor ds.length) i) := by
  rw [generateDefaultPositions_eq, lookupRec_reverse, List.enum,
    lookupRec_enumFrom _ ds 0 i hi hnd, Nat.zero_add]
  have hkeys :
      (ds.enum.map
        (fun p => (p.2, defaultPos (colsFor ds.length) p.1))).map Prod.fst =
        ds := by
    rw [List.map_map]
    exact List.enum_map_snd ds
  rw [hkeys]
  exact hnd

/-- C8: with a non-empty backend position set, the merged positions
record resolves every desk by priority Supabase, then previously held
(localStorage-seeded) position, then generated default; the default of
the `i`-th of the desks is the grid point
`((i % cols) * 220 + 150, (i / cols) * 220 + 150)`; and `cols` is the
ceiling of the square root of the desk count. -/
theorem mergedPositions_priority (supa prev : List (Int × TablePos))
    (ds : List Int) (_hs : supa ≠ []) :
    (∀ d, lookupRec (mergedPositions supa prev ds) d =
      firstSome (lookupRec supa d)
        (firstSome (lookupRec prev d)
          (lookupRec (generateDefaultPositions ds) d))) ∧
    (∀ (i : Nat) (hi : i < ds.length), ds.Nodup →
      lookupRec (generateDefaultPositions ds) (ds.get ⟨i, hi⟩) =
        some (defaultPos (colsFor ds.length) i)) ∧
    (∀ ncols i, defaultPos ncols i =
      { x := ((i % ncols) * 220 + 150 : Nat),
        y := (i / ncols * 220 + 150 : Nat) }) ∧
    (∀ n, n ≤ colsFor n * colsFor n ∧
      (1 ≤ n → (colsFor n - 1) * (colsFor n - 1) < n)) := by
  refine ⟨?_, fun i hi hnd => lookupRec_generateDefault ds hnd i hi,
    fun ncols i => rfl, ?_⟩
  · intro d
    rw [mergedPositions, recSpread, recSpread, lookupRec_append,
      lookupRec_append]
  · intro n
    have hle := Nat.sqrt_le n
    have hlt := Nat.lt_succ_sqrt n
    constructor
    · rw [colsFor]
      by_cases h : Nat.sqrt n * Nat.sqrt n = n
      · rw [if_pos h, h]
      · rw [if_neg h]
        exact le_of_lt hlt
    · intro hn
      have hs1 : 1 ≤ Nat.sqrt n := by
        rcases Nat.eq_zero_or_pos (Nat.sqrt n) with h0 | h0
        · rw [Nat.sqrt_eq_zero] at h0
          omega
        · exact h0
      rw [colsFor]
      by_cases h : Nat.sqrt n * Nat.sqrt n = n
      · rw [if_pos h]
        obtain ⟨a, ha⟩ : ∃ a, Nat.sqrt n = a + 1 := ⟨Nat.sqrt n - 1, by omega⟩
        rw [ha] at h
        rw [ha, Nat.add_sub_cancel]
        have hss : (a + 1) * (a + 1) = a * a + a + a + 1 := by ring
        omega
      · rw [if_neg h, Nat.add_sub_cancel]
        omega

/-- Witness for C8 at concrete position records and desks. -/
theorem mergedPositions_priority_witness :
    lookupRec
        (mergedPositions [((1 : Int), { x := 5, y := 6 })]
          [((2 : Int), { x := 7, y := 8 })] [1, 2, 3]) 2 =
      some { x := 7, y := 8 } := by
  rw [(mergedPositions_priority [((1 : Int), { x := 5, y := 6 })]
    [((2 : Int), { x := 7, y := 8 })] [1, 2, 3] (by decide)).1 2]
  rfl

end EngagementPlan
